import Mathlib

/-!
Verification of the snitch sampling, classification and notification core.

The definitions below are a shallow embedding of the Python sources
`src/ml/ml.py` and `src/core/core.py` of the varadanvk/snitch repository.
Timestamps and durations are modelled as integers (epoch seconds); ratios
are rational numbers.  Python string scanning is modelled by executable
functions over lists of characters, mirroring the Python string methods
used by the source (strip, lower, startswith, split, substring test).
External collaborators (the Ollama HTTP service, the Twilio message
gateway, the message generator) are modelled as explicit inputs: a
service outcome value, a per-recipient delivery oracle, and the generated
message text.
-/

namespace Snitch

/-! ### Character-list models of the Python string methods -/

/-- Model of Python `str.startswith`: does the second list lead the first
argument list of characters. -/
def leadsChars : List Char → List Char → Bool
  | [], _ => true
  | _ :: _, [] => false
  | a :: as, b :: bs => a == b && leadsChars as bs

/-- Model of the Python substring test `needle in hay` on character lists. -/
def hasSubChars (needle : List Char) : List Char → Bool
  | [] => leadsChars needle []
  | c :: rest => leadsChars needle (c :: rest) || hasSubChars needle rest

/-- Model of Python `str.lower` (ASCII lowering, as used by the source). -/
def lowerStr (s : String) : String := ⟨s.data.map Char.toLower⟩

/-- Model of Python `s.startswith(pre)`. -/
def strLeads (s pre : String) : Bool := leadsChars pre.data s.data

/-- Model of the Python substring test `needle in hay` on strings. -/
def strHasSub (hay needle : String) : Bool := hasSubChars needle.data hay.data

/-- Model of Python `str.strip` on a character list. -/
def trimChars (l : List Char) : List Char :=
  ((l.dropWhile Char.isWhitespace).reverse.dropWhile Char.isWhitespace).reverse

/-- Model of Python `str.strip`. -/
def trimStr (s : String) : String := ⟨trimChars s.data⟩

/-- Model of Python `str.split(sep)` for a one-character separator. -/
def splitChars (sep : Char) : List Char → List (List Char)
  | [] => [[]]
  | c :: rest =>
    let r := splitChars sep rest
    if c == sep then [] :: r
    else
      match r with
      | [] => [[c]]
      | seg :: segs => (c :: seg) :: segs

/-- Model of Python `s.split(sep)` for a one-character separator. -/
def splitStr (sep : Char) (s : String) : List String :=
  (splitChars sep s.data).map (fun l => ⟨l⟩)

/-- Everything after the first occurrence of `sep`, the empty list when
`sep` does not occur: model of Python `s.split(sep, 1)[1]`. -/
def afterFirstChars (sep : Char) : List Char → List Char
  | [] => []
  | c :: rest => if c == sep then rest else afterFirstChars sep rest

/-- Model of Python `s.split(sep, 1)[1]` on strings. -/
def afterFirstStr (sep : Char) (s : String) : String := ⟨afterFirstChars sep s.data⟩

/-- Model of the Python membership test `c in s` for a character. -/
def containsChar (s : String) (c : Char) : Bool := s.data.any (fun d => d == c)

/-- Model of Python slicing `s[:n]`. -/
def takeStr (n : Nat) (s : String) : String := ⟨s.data.take n⟩

/-! ### Classifier: `ScreenAnalyzer.analyze_screenshot` (src/ml/ml.py) -/

/-- The structured classification result built by
`ScreenAnalyzer.analyze_screenshot`: the dict
with keys activity_type, activity, confidence, reasoning. -/
structure AnalysisResult where
  activity_type : String
  activity : String
  confidence : ℚ
  reasoning : String
deriving DecidableEq, Repr

/-- The three fields accumulated by the line-scanning loop of
`analyze_screenshot` (lines 245 to 263 of src/ml/ml.py). -/
structure ParseState where
  activity_type : String
  activity : String
  reasoning : String
deriving DecidableEq, Repr

/-- The condition of the first branch of the scanning loop:
`line.lower().startswith("activity type:") or line.lower().startswith("activity type =")`. -/
def typeBranch (line : String) : Bool :=
  strLeads (lowerStr line) "activity type:" || strLeads (lowerStr line) "activity type ="

/-- The condition of the second branch of the scanning loop:
`line.lower().startswith("activity:") or line.lower().startswith("activity =")`. -/
def activityBranch (line : String) : Bool :=
  strLeads (lowerStr line) "activity:" || strLeads (lowerStr line) "activity ="

/-- The condition of the third branch of the scanning loop:
`line.lower().startswith("reasoning:") or line.lower().startswith("reasoning =")`. -/
def reasoningBranch (line : String) : Bool :=
  strLeads (lowerStr line) "reasoning:" || strLeads (lowerStr line) "reasoning ="

/-- The value extracted from a labeled line:
`line.split(":", 1)[1].strip() if ":" in line else line.split("=", 1)[1].strip()`. -/
def extractValue (line : String) : String :=
  if containsChar line ':' then trimStr (afterFirstStr ':' line)
  else if containsChar line '=' then trimStr (afterFirstStr '=' line)
  else ""

/-- One pass of the scanning loop body of `analyze_screenshot` over a raw
line of the response (the loop first strips the line, then tries the
three labeled-line branches in order). -/
def processLine (st : ParseState) (rawLine : String) : ParseState :=
  let line := trimStr rawLine
  if typeBranch line then
    let v := lowerStr (extractValue line)
    if strHasSub v "productive" then { st with activity_type := "productive" }
    else if strHasSub v "distracting" then { st with activity_type := "distracting" }
    else st
  else if activityBranch line then { st with activity := extractValue line }
  else if reasoningBranch line then { st with reasoning := extractValue line }
  else st

/-- The parse of the service response performed by `analyze_screenshot`
(lines 244 to 288 of src/ml/ml.py): scan the lines, then apply the
whole-response substring fallback for the label, the sentence fallback
for the activity, and the truncated-response fallback for the reasoning.
The confidence is the fixed constant 0.8. -/
def parseAnalysis (response : String) : AnalysisResult :=
  let st := (splitStr '\n' response).foldl processLine ⟨"unknown", "unspecified activity", ""⟩
  let low := lowerStr response
  let activity_type :=
    if st.activity_type == "unknown" then
      if strHasSub low "productive" then "productive"
      else if strHasSub low "distracting" then "distracting"
      else st.activity_type
    else st.activity_type
  let activity :=
    if st.activity == "" || st.activity == "unspecified activity" then
      if strHasSub low "you are" || strHasSub low "user is" then
        match (splitStr '.' response).filter
            (fun part => strHasSub (lowerStr part) "you are"
              || strHasSub (lowerStr part) "user is") with
        | [] => st.activity
        | p :: _ => trimStr p
      else st.activity
    else st.activity
  let reasoning := if st.reasoning == "" then takeStr 150 response else st.reasoning
  ⟨activity_type, activity, 4/5, reasoning⟩

/-- The observable outcome of the one HTTP request issued by
`OllamaInterface.generate_analysis`: a 200 response carrying text, a
non-200 HTTP status, or a raised transport exception. -/
inductive ServiceOutcome where
  | ok (text : String)
  | httpError (errText : String)
  | transportError (errText : String)
deriving DecidableEq, Repr

/-- `OllamaInterface.generate_analysis` (lines 143 to 200 of
src/ml/ml.py) as a function of service availability and of the request
outcome.  `serviceAvailable` stands for
`self.is_available or self.start_ollama_if_needed()`.  Every failure is
caught inside the function and converted into a fixed fallback string;
nothing is raised to the caller. -/
def generate_analysis (serviceAvailable : Bool) (outcome : ServiceOutcome) : String :=
  if !serviceAvailable then "Ollama is not available for advanced analysis."
  else
    match outcome with
    | .ok text => text
    | .httpError _ => "Error generating analysis"
    | .transportError _ => "Failed to communicate with Ollama"

/-- `ScreenAnalyzer.analyze_screenshot` (lines 210 to 297 of
src/ml/ml.py) as a function of service availability and of the request
outcome.  When the service is unavailable and cannot be started the
fixed unavailable dict is returned; otherwise the response text produced
by `generate_analysis` is parsed.  The except branch of the source
(label error, description error analyzing screen) is reachable only via
an exception raised inside the try block, and `generate_analysis`
converts every service failure into a returned string instead of an
exception. -/
def analyze_screenshot (serviceAvailable : Bool) (outcome : ServiceOutcome) : AnalysisResult :=
  if !serviceAvailable then
    ⟨"unknown", "Ollama not available", 0, "Please install Ollama to use this feature."⟩
  else
    parseAnalysis (generate_analysis serviceAvailable outcome)

/-! ### ActivityHistory (src/ml/ml.py, lines 500 to 603) -/

/-- One entry of `ActivityHistory.activities`: the dict built by
`add_activity` from the timestamp, the activity type, the productivity
flag and the merged details (modelled by their activity component). -/
structure Activity where
  timestamp : ℤ
  activity_type : String
  is_productive : Bool
  activity : String
deriving DecidableEq, Repr

/-- The `ActivityHistory` object: the retained samples and the capacity
`max_history` (default 100). -/
structure ActivityHistory where
  activities : List Activity
  max_history : ℕ
deriving DecidableEq, Repr

/-- Model of the Python slice `l[-n:]`: for positive `n` the last `n`
elements, for `n = 0` the whole list (since `l[-0:]` is `l[0:]`). -/
def pySliceLast (l : List Activity) (n : ℕ) : List Activity :=
  if n = 0 then l else l.drop (l.length - n)

/-- `ActivityHistory.add_activity`: append the sample, then trim to the
last `max_history` entries when the length exceeds the capacity. -/
def add_activity (h : ActivityHistory) (a : Activity) : ActivityHistory :=
  let acts := h.activities ++ [a]
  if h.max_history < acts.length then { h with activities := pySliceLast acts h.max_history }
  else { h with activities := acts }

/-- The in-window samples used by the productivity ratio:
`[a for a in self.activities if a["timestamp"] > cutoff_time]` with
`cutoff_time = now - timedelta(hours=timeframe_hours)`. -/
def recentActivities (h : ActivityHistory) (now : ℤ) (timeframe_hours : ℤ) : List Activity :=
  h.activities.filter (fun a => decide (now - timeframe_hours * 3600 < a.timestamp))

/-- `ActivityHistory.get_productivity_ratio`: 0.5 on an empty history or
an empty in-window set, otherwise the fraction of in-window samples
whose productivity flag is set. -/
def get_productivity_ratioQ (h : ActivityHistory) (now : ℤ) (timeframe_hours : ℤ) : ℚ :=
  if h.activities.isEmpty then 1/2
  else
    let recent := recentActivities h now timeframe_hours
    if recent.isEmpty then 1/2
    else ((recent.countP (fun a => a.is_productive) : ℕ) : ℚ) / ((recent.length : ℕ) : ℚ)

/-- The three time-of-day buckets of `identify_patterns`. -/
inductive Period where
  | morning
  | afternoon
  | evening
deriving DecidableEq, Repr

/-- One bucket of the `time_of_day` dict: its productive and distracting
tallies. -/
structure PeriodCounts where
  productive : ℕ
  distracting : ℕ
deriving DecidableEq, Repr

/-- The `time_of_day` dict of `identify_patterns`, in its insertion
order morning, afternoon, evening. -/
structure TimeOfDay where
  morning : PeriodCounts
  afternoon : PeriodCounts
  evening : PeriodCounts
deriving DecidableEq, Repr

/-- The local hour of an epoch-second timestamp, as Python exposes it
through `datetime.hour`. -/
def hourOf (t : ℤ) : ℕ := ((t / 3600) % 24).toNat

/-- The bucket assignment of `identify_patterns`:
`if 5 <= hour < 12` morning, `elif 12 <= hour < 18` afternoon, else
evening. -/
def periodOf (hour : ℕ) : Period :=
  if 5 ≤ hour ∧ hour < 12 then .morning
  else if 12 ≤ hour ∧ hour < 18 then .afternoon
  else .evening

/-- Increment one bucket according to the productivity flag. -/
def bump (c : PeriodCounts) (isProd : Bool) : PeriodCounts :=
  if isProd then { c with productive := c.productive + 1 }
  else { c with distracting := c.distracting + 1 }

/-- The body of the bucketing loop of `identify_patterns` for one
sample. -/
def tally (tod : TimeOfDay) (a : Activity) : TimeOfDay :=
  match periodOf (hourOf a.timestamp) with
  | .morning => { tod with morning := bump tod.morning a.is_productive }
  | .afternoon => { tod with afternoon := bump tod.afternoon a.is_productive }
  | .evening => { tod with evening := bump tod.evening a.is_productive }

/-- The bucketing loop of `identify_patterns` over all retained
samples, starting from all-zero tallies. -/
def timeOfDayCounts (h : ActivityHistory) : TimeOfDay :=
  h.activities.foldl tally ⟨⟨0, 0⟩, ⟨0, 0⟩, ⟨0, 0⟩⟩

/-- Access the bucket of a period inside the `time_of_day` dict. -/
def getCounts (tod : TimeOfDay) : Period → PeriodCounts
  | .morning => tod.morning
  | .afternoon => tod.afternoon
  | .evening => tod.evening

/-- The key function of the max and min calls of `identify_patterns`:
`x[1]["productive"] / (sum(x[1].values()) or 1)`. -/
def periodRatioQ (c : PeriodCounts) : ℚ :=
  ((c.productive : ℕ) : ℚ)
    / (if c.productive + c.distracting = 0 then 1 else ((c.productive + c.distracting : ℕ) : ℚ))

/-- Model of Python `max(items, key=f)` over the dict items in their
insertion order morning, afternoon, evening: the first element attaining
the maximum key. -/
def pyMax3 (f : Period → ℚ) : Period :=
  [Period.afternoon, Period.evening].foldl (fun best p => if f best < f p then p else best)
    Period.morning

/-- Model of Python `min(items, key=f)` over the dict items in their
insertion order morning, afternoon, evening: the first element attaining
the minimum key. -/
def pyMin3 (f : Period → ℚ) : Period :=
  [Period.afternoon, Period.evening].foldl (fun best p => if f p < f best then p else best)
    Period.morning

/-- The dict returned by `identify_patterns` on a non-empty history. -/
structure PatternReport where
  overall_productivity : ℚ
  most_productive_period : Period
  least_productive_period : Period
  time_of_day : TimeOfDay
deriving DecidableEq, Repr

/-- `ActivityHistory.identify_patterns` (lines 552 to 603 of
src/ml/ml.py): none models the not-enough-data message returned on an
empty history. -/
def identify_patterns (h : ActivityHistory) : Option PatternReport :=
  if h.activities.isEmpty then none
  else
    let productive_count := h.activities.countP (fun a => a.is_productive)
    let tod := timeOfDayCounts h
    some ⟨((productive_count : ℕ) : ℚ) / ((h.activities.length : ℕ) : ℚ),
      pyMax3 (fun p => periodRatioQ (getCounts tod p)),
      pyMin3 (fun p => periodRatioQ (getCounts tod p)), tod⟩

/-! ### NotificationManager (src/core/core.py, lines 136 to 196) -/

/-- One entry of `notification_history`: the dict built by
`send_notification` (its context modelled by the activity string the
scheduler puts into it). -/
structure NotificationRecord where
  timestamp : ℤ
  message_type : String
  message : String
  context : String
deriving DecidableEq, Repr

/-- The mutable state of `NotificationManager`: the notification log,
the single shared cooldown timestamp and the minimum interval
(initialised to 6 seconds). -/
structure NotificationManager where
  notification_history : List NotificationRecord
  last_notification_time : Option ℤ
  min_notification_interval : ℤ
deriving DecidableEq, Repr

/-- A freshly constructed `NotificationManager`. -/
def initialNotificationManager : NotificationManager := ⟨[], none, 6⟩

/-- The outcome of one `send_notification` call: the updated manager,
the returned boolean, and the `(message, message_type)` pair passed to
the registered `on_notification` callback when one fires. -/
structure NotifyResult where
  manager : NotificationManager
  sent : Bool
  callback_event : Option (String × String)
deriving DecidableEq, Repr

/-- The non-rate-limited tail of `send_notification`: generate the
message (modelled by the `genMessage` input), append the record, update
`last_notification_time`, invoke the callback, return true. -/
def sendNow (nm : NotificationManager) (now : ℤ) (message_type context genMessage : String) :
    NotifyResult :=
  ⟨{ nm with
      notification_history := nm.notification_history ++ [⟨now, message_type, genMessage, context⟩],
      last_notification_time := some now },
    true, some (genMessage, message_type)⟩

/-- `NotificationManager.send_notification` (lines 152 to 192 of
src/core/core.py): reject when a previous notification of any category
happened less than `min_notification_interval` seconds ago, otherwise
send.  The rate limit reads the single `last_notification_time` field;
the message category takes no part in the cooldown check. -/
def send_notification (nm : NotificationManager) (now : ℤ)
    (message_type context genMessage : String) : NotifyResult :=
  match nm.last_notification_time with
  | some t =>
    if now - t < nm.min_notification_interval then ⟨nm, false, none⟩
    else sendNow nm now message_type context genMessage
  | none => sendNow nm now message_type context genMessage

/-! ### AccountabilityManager (src/core/core.py, lines 199 to 310) -/

/-- One accountability buddy: the dict
`{"name": ..., "phone_number": ..., "enabled": ...}`. -/
structure Buddy where
  name : String
  phone_number : String
  enabled : Bool
deriving DecidableEq, Repr

/-- The mutable state of `AccountabilityManager`: the roster, the snitch
mode flag, the cooldown timestamp and the minimum interval (initialised
to 3600 seconds). -/
structure AccountabilityManager where
  buddies : List Buddy
  snitch_mode_enabled : Bool
  last_snitch_time : Option ℤ
  min_snitch_interval : ℤ
deriving DecidableEq, Repr

/-- `AccountabilityManager.add_buddy`: refuse when some buddy already
has the phone number, otherwise append a new enabled buddy. -/
def add_buddy (am : AccountabilityManager) (name phone_number : String) :
    AccountabilityManager × Bool :=
  if am.buddies.any (fun b => b.phone_number == phone_number) then (am, false)
  else ({ am with buddies := am.buddies ++ [⟨name, phone_number, true⟩] }, true)

/-- `AccountabilityManager.remove_buddy`: drop every buddy with the
phone number; report whether the roster shrank. -/
def remove_buddy (am : AccountabilityManager) (phone_number : String) :
    AccountabilityManager × Bool :=
  let remaining := am.buddies.filter (fun b => !(b.phone_number == phone_number))
  if remaining.length < am.buddies.length then ({ am with buddies := remaining }, true)
  else (am, false)

/-- The loop of `toggle_buddy`: set the enabled flag of the first buddy
with the phone number and stop; none when no buddy matches. -/
def toggleFirst : List Buddy → String → Bool → Option (List Buddy)
  | [], _, _ => none
  | b :: bs, phone, en =>
    if b.phone_number == phone then some ({ b with enabled := en } :: bs)
    else
      match toggleFirst bs phone en with
      | some bs2 => some (b :: bs2)
      | none => none

/-- `AccountabilityManager.toggle_buddy`. -/
def toggle_buddy (am : AccountabilityManager) (phone_number : String) (enabled : Bool) :
    AccountabilityManager × Bool :=
  match toggleFirst am.buddies phone_number enabled with
  | some bs => ({ am with buddies := bs }, true)
  | none => (am, false)

/-- The rate-limit test of `snitch`:
`self.last_snitch_time and (now - self.last_snitch_time).total_seconds() < self.min_snitch_interval`. -/
def snitchRateLimited (am : AccountabilityManager) (now : ℤ) : Bool :=
  match am.last_snitch_time with
  | some t => decide (now - t < am.min_snitch_interval)
  | none => false

/-- `AccountabilityManager.snitch` (lines 250 to 289 of
src/core/core.py), with the Twilio gateway modelled by the delivery
oracle `send` from phone numbers to success booleans: refuse when snitch
mode is off or the roster is empty; refuse when rate limited; otherwise
attempt delivery to every enabled buddy, and advance `last_snitch_time`
and return true exactly when at least one delivery succeeded. -/
def snitch (am : AccountabilityManager) (now : ℤ) (send : String → Bool) :
    AccountabilityManager × Bool :=
  if !am.snitch_mode_enabled || am.buddies.isEmpty then (am, false)
  else if snitchRateLimited am now then (am, false)
  else
    let messages_sent := am.buddies.countP (fun b => b.enabled && send b.phone_number)
    if 0 < messages_sent then ({ am with last_snitch_time := some now }, true)
    else (am, false)

/-! ### SnitchCore monitoring loop body (src/core/core.py, lines 455 to 523) -/

/-- The per-iteration state touched by the classification handling of
`SnitchCore._monitoring_loop`: the history, the notifier, the
accountability manager and the local `last_notification_time` of the
loop. -/
structure CoreState where
  activity_history : ActivityHistory
  notification_manager : NotificationManager
  accountability_manager : AccountabilityManager
  last_notification_time : ℤ
deriving DecidableEq, Repr

/-- The outcome of one loop iteration: the updated state, the category
of the notification attempt when one was made, and whether the notifier
reported the notification as sent. -/
structure IterationResult where
  state : CoreState
  attempted_category : Option String
  notification_sent : Bool
deriving DecidableEq, Repr

/-- The sample dict recorded by the loop:
`self.activity_history.add_activity(datetime.now(), activity_type, is_productive, {"activity": activity})`
with `is_productive = activity_type == "productive"`. -/
def recordedActivity (now : ℤ) (analysis : AnalysisResult) : Activity :=
  ⟨now, analysis.activity_type, analysis.activity_type == "productive", analysis.activity⟩

/-- One iteration of `SnitchCore._monitoring_loop` after the screenshot
has been analyzed (lines 469 to 509 of src/core/core.py): record the
sample into the history, and when the notification interval has elapsed
and the sample is not productive, call
`send_notification("distracted", context)`; when that send succeeds,
reset the local notification clock and call `snitch`.  The generated
message and the delivery oracle are explicit inputs, as in the component
models above. -/
def monitoring_iteration (st : CoreState) (now : ℤ) (analysis : AnalysisResult)
    (notification_interval : ℤ) (genMessage : String) (send : String → Bool) :
    IterationResult :=
  let is_productive := analysis.activity_type == "productive"
  let history2 := add_activity st.activity_history (recordedActivity now analysis)
  let notification_due := decide (notification_interval ≤ now - st.last_notification_time)
  if notification_due && !is_productive then
    let r := send_notification st.notification_manager now "distracted" analysis.activity genMessage
    if r.sent then
      ⟨⟨history2, r.manager, (snitch st.accountability_manager now send).1, now⟩,
        some "distracted", true⟩
    else
      ⟨⟨history2, r.manager, st.accountability_manager, st.last_notification_time⟩,
        some "distracted", false⟩
  else
    ⟨⟨history2, st.notification_manager, st.accountability_manager, st.last_notification_time⟩,
      none, false⟩

/-! ### Derived notions used by the verification -/

/-- The last `n` elements of a list (all of it when it is shorter). -/
def takeLastL (l : List Activity) (n : ℕ) : List Activity := l.drop (l.length - n)

/-- The roster invariant: all phone numbers are pairwise distinct. -/
def rosterDistinct (am : AccountabilityManager) : Prop :=
  (am.buddies.map Buddy.phone_number).Nodup

/-- The first branch of the scanning loop fires and changes the label:
the line matches the activity-type label and its value mentions
productive or distracting. -/
def typeFires (rawLine : String) : Bool :=
  typeBranch (trimStr rawLine) &&
    (strHasSub (lowerStr (extractValue (trimStr rawLine))) "productive"
      || strHasSub (lowerStr (extractValue (trimStr rawLine))) "distracting")

/-- The second branch of the scanning loop fires: the line matches the
activity label and not the activity-type label. -/
def activityFires (rawLine : String) : Bool :=
  !typeBranch (trimStr rawLine) && activityBranch (trimStr rawLine)

/-- The third branch of the scanning loop fires: the line matches the
reasoning label and neither earlier label. -/
def reasoningFires (rawLine : String) : Bool :=
  !typeBranch (trimStr rawLine) && !activityBranch (trimStr rawLine)
    && reasoningBranch (trimStr rawLine)

/-- The first-encountered order of the buckets: morning, afternoon,
evening. -/
def periodIdx : Period → ℕ
  | .morning => 0
  | .afternoon => 1
  | .evening => 2

/-- The morning hour set of the claim: the interval from 5 to 12. -/
def inMorning (hr : ℕ) : Prop := 5 ≤ hr ∧ hr < 12

/-- The afternoon hour set of the claim: the interval from 12 to 18. -/
def inAfternoon (hr : ℕ) : Prop := 12 ≤ hr ∧ hr < 18

/-- The evening hour set of the claim: the union of the interval from
18 to 24 and the interval below 5. -/
def inEvening (hr : ℕ) : Prop := (18 ≤ hr ∧ hr < 24) ∨ hr < 5

instance : DecidablePred inMorning := fun hr => by unfold inMorning; infer_instance

instance : DecidablePred inAfternoon := fun hr => by unfold inAfternoon; infer_instance

instance : DecidablePred inEvening := fun hr => by unfold inEvening; infer_instance

/-- The full pattern-report specification of claim C8 for a history and
the report produced on it: the buckets count exactly the retained
samples whose local hour lies in the corresponding hour set, each
bucket ratio is productive over productive plus distracting with an
empty bucket giving ratio 0 rather than a division by zero, and the
most and least productive periods attain the highest and lowest ratio
with ties broken by the first-encountered order morning, afternoon,
evening. -/
def patternsSpec (h : ActivityHistory) (report : PatternReport) : Prop :=
  report.time_of_day = timeOfDayCounts h ∧
  ((getCounts report.time_of_day Period.morning).productive
    = h.activities.countP (fun a => a.is_productive && decide (inMorning (hourOf a.timestamp)))) ∧
  ((getCounts report.time_of_day Period.morning).distracting
    = h.activities.countP (fun a => !a.is_productive && decide (inMorning (hourOf a.timestamp)))) ∧
  ((getCounts report.time_of_day Period.afternoon).productive
    = h.activities.countP (fun a => a.is_productive && decide (inAfternoon (hourOf a.timestamp)))) ∧
  ((getCounts report.time_of_day Period.afternoon).distracting
    = h.activities.countP (fun a => !a.is_productive && decide (inAfternoon (hourOf a.timestamp)))) ∧
  ((getCounts report.time_of_day Period.evening).productive
    = h.activities.countP (fun a => a.is_productive && decide (inEvening (hourOf a.timestamp)))) ∧
  ((getCounts report.time_of_day Period.evening).distracting
    = h.activities.countP (fun a => !a.is_productive && decide (inEvening (hourOf a.timestamp)))) ∧
  (∀ p : Period,
    (getCounts report.time_of_day p).productive + (getCounts report.time_of_day p).distracting = 0 →
    periodRatioQ (getCounts report.time_of_day p) = 0) ∧
  (∀ p : Period,
    0 < (getCounts report.time_of_day p).productive + (getCounts report.time_of_day p).distracting →
    periodRatioQ (getCounts report.time_of_day p)
      = (((getCounts report.time_of_day p).productive : ℕ) : ℚ)
        / ((((getCounts report.time_of_day p).productive
            + (getCounts report.time_of_day p).distracting : ℕ)) : ℚ)) ∧
  (∀ p : Period,
    periodRatioQ (getCounts report.time_of_day p)
      ≤ periodRatioQ (getCounts report.time_of_day report.most_productive_period)) ∧
  (∀ p : Period,
    periodRatioQ (getCounts report.time_of_day p)
        = periodRatioQ (getCounts report.time_of_day report.most_productive_period) →
    periodIdx report.most_productive_period ≤ periodIdx p) ∧
  (∀ p : Period,
    periodRatioQ (getCounts report.time_of_day report.least_productive_period)
      ≤ periodRatioQ (getCounts report.time_of_day p)) ∧
  (∀ p : Period,
    periodRatioQ (getCounts report.time_of_day p)
        = periodRatioQ (getCounts report.time_of_day report.least_productive_period) →
    periodIdx report.least_productive_period ≤ periodIdx p)

/-! ### Shared helper lemmas -/

/-- A `send_notification` call that reports success took the sending
path. -/
lemma send_notification_sent_eq (nm : NotificationManager) (now : ℤ)
    (cat ctx gen : String) (hsent : (send_notification nm now cat ctx gen).sent = true) :
    send_notification nm now cat ctx gen = sendNow nm now cat ctx gen := by
  cases hl : nm.last_notification_time with
  | none => simp [send_notification, hl]
  | some t =>
    by_cases hr : now - t < nm.min_notification_interval
    · simp [send_notification, hl, hr] at hsent
    · simp [send_notification, hl, hr]

/-- The manager state after the sending path. -/
lemma sendNow_manager (nm : NotificationManager) (now : ℤ) (cat ctx gen : String) :
    (sendNow nm now cat ctx gen).manager
      = { nm with
          notification_history := nm.notification_history ++ [⟨now, cat, gen, ctx⟩],
          last_notification_time := some now } := rfl

/-- A call within the cooldown window of a manager whose
`last_notification_time` is set is rejected with no state change. -/
lemma send_notification_reject (nm : NotificationManager) (t now : ℤ)
    (cat ctx gen : String) (hl : nm.last_notification_time = some t)
    (hr : now - t < nm.min_notification_interval) :
    send_notification nm now cat ctx gen = ⟨nm, false, none⟩ := by
  simp [send_notification, hl, hr]

/-- A call at or after the cooldown window of a manager whose
`last_notification_time` is set takes the sending path. -/
lemma send_notification_pass (nm : NotificationManager) (t now : ℤ)
    (cat ctx gen : String) (hl : nm.last_notification_time = some t)
    (hr : nm.min_notification_interval ≤ now - t) :
    send_notification nm now cat ctx gen = sendNow nm now cat ctx gen := by
  simp [send_notification, hl, not_lt.mpr hr]

/-! ### Claim C1 (notifier rate limiting keyed by category) -/

/-- Claim C1 counterexample: the rate limit is not keyed by category.
After a successful send of category distracted at time 0, a call of the
different category productive one second later is rejected by the
cooldown, although the claim says a send in one category must not cause
the rejection of another category. -/
theorem notify_categories_share_cooldown :
    (send_notification initialNotificationManager 0 "distracted" "c" "m1").sent = true ∧
    (send_notification
        (send_notification initialNotificationManager 0 "distracted" "c" "m1").manager
        1 "productive" "c" "m2").sent = false := by
  constructor <;> rfl

/-- Claim C1 (amended): the notifier keeps one global two-state cooldown
machine shared by all categories.  A successful send of any category at
time `now` sets the single `last_notification_time` to `now`, and any
later call of any category strictly inside the interval is rejected with
no side effect. -/
theorem notify_cooldown_global (nm : NotificationManager) (now now2 : ℤ)
    (cat ctx gen cat2 ctx2 gen2 : String)
    (hsent : (send_notification nm now cat ctx gen).sent = true)
    (hlt : now2 - now < nm.min_notification_interval) :
    (send_notification nm now cat ctx gen).manager.last_notification_time = some now ∧
    send_notification (send_notification nm now cat ctx gen).manager now2 cat2 ctx2 gen2
      = ⟨(send_notification nm now cat ctx gen).manager, false, none⟩ := by
  rw [send_notification_sent_eq nm now cat ctx gen hsent, sendNow_manager]
  exact ⟨rfl, send_notification_reject _ now now2 cat2 ctx2 gen2 rfl hlt⟩

/-- Concrete instance of the amended claim C1. -/
theorem notify_cooldown_global_witness :
    (send_notification initialNotificationManager 0 "distracted" "c" "m1").manager.last_notification_time
        = some 0 ∧
    send_notification
        (send_notification initialNotificationManager 0 "distracted" "c" "m1").manager
        1 "productive" "c" "m2"
      = ⟨(send_notification initialNotificationManager 0 "distracted" "c" "m1").manager,
          false, none⟩ :=
  notify_cooldown_global initialNotificationManager 0 1 "distracted" "c" "m1" "productive" "c"
    "m2" (by decide) (by decide)

/-! ### Claim C5 (notifier cooldown on same-category calls) -/

/-- Claim C5: after a successful send, a same-category call strictly
less than the interval later returns false with no side effect (no new
record, unchanged cooldown, no callback), and a same-category call at
least the interval later returns true, appends exactly one record,
updates the cooldown and invokes the callback with the message and the
category. -/
theorem notify_same_category_cooldown (nm : NotificationManager) (now now2 : ℤ)
    (cat ctx gen ctx2 gen2 : String)
    (hsent : (send_notification nm now cat ctx gen).sent = true) :
    (now2 - now < nm.min_notification_interval →
      send_notification (send_notification nm now cat ctx gen).manager now2 cat ctx2 gen2
        = ⟨(send_notification nm now cat ctx gen).manager, false, none⟩) ∧
    (nm.min_notification_interval ≤ now2 - now →
      send_notification (send_notification nm now cat ctx gen).manager now2 cat ctx2 gen2
        = ⟨{ (send_notification nm now cat ctx gen).manager with
              notification_history :=
                (send_notification nm now cat ctx gen).manager.notification_history
                  ++ [⟨now2, cat, gen2, ctx2⟩],
              last_notification_time := some now2 },
            true, some (gen2, cat)⟩) := by
  rw [send_notification_sent_eq nm now cat ctx gen hsent, sendNow_manager]
  constructor
  · intro hlt
    exact send_notification_reject _ now now2 cat ctx2 gen2 rfl hlt
  · intro hge
    exact (send_notification_pass
      { nm with
          notification_history := nm.notification_history ++ [⟨now, cat, gen, ctx⟩],
          last_notification_time := some now }
      now now2 cat ctx2 gen2 rfl hge).trans rfl

/-- Concrete instance of claim C5: a second same-category call 1 second
after a successful send is rejected without side effects, and a second
call 6 seconds after succeeds and appends one record. -/
theorem notify_same_category_cooldown_witness :
    (send_notification
        (send_notification initialNotificationManager 0 "distracted" "c" "m1").manager
        1 "distracted" "c2" "m2"
      = ⟨(send_notification initialNotificationManager 0 "distracted" "c" "m1").manager,
          false, none⟩) ∧
    (send_notification
        (send_notification initialNotificationManager 0 "distracted" "c" "m1").manager
        6 "distracted" "c2" "m2"
      = ⟨{ (send_notification initialNotificationManager 0 "distracted" "c" "m1").manager with
            notification_history :=
              (send_notification initialNotificationManager 0 "distracted" "c" "m1").manager.notification_history
                ++ [⟨6, "distracted", "m2", "c2"⟩],
            last_notification_time := some 6 },
          true, some ("m2", "distracted")⟩) :=
  ⟨(notify_same_category_cooldown initialNotificationManager 0 1 "distracted" "c" "m1" "c2" "m2"
      (by decide)).1 (by decide),
    (notify_same_category_cooldown initialNotificationManager 0 6 "distracted" "c" "m1" "c2" "m2"
      (by decide)).2 (by decide)⟩

/-! ### Claim C4 (escalator success and failure behavior) -/

/-- Claim C4: `snitch` is a no-op returning false when escalation is
disabled or the roster is empty; on a call that passes the guards and
the cooldown, it advances `last_snitch_time` and returns true exactly
when at least one delivery to an enabled recipient succeeded, and leaves
the state completely unchanged when every delivery fails, so an
immediately following call sees the same cooldown state. -/
theorem snitch_spec (am : AccountabilityManager) (now : ℤ) (send : String → Bool) :
    (am.snitch_mode_enabled = false ∨ am.buddies = [] → snitch am now send = (am, false)) ∧
    (am.snitch_mode_enabled = true → am.buddies ≠ [] → snitchRateLimited am now = false →
      ((∃ b ∈ am.buddies, b.enabled = true ∧ send b.phone_number = true) →
        snitch am now send = ({ am with last_snitch_time := some now }, true)) ∧
      ((∀ b ∈ am.buddies, b.enabled = true → send b.phone_number = false) →
        snitch am now send = (am, false))) := by
  constructor
  · rintro (he | he) <;> simp [snitch, he]
  · intro he hb hr
    constructor
    · rintro ⟨b, hmem, hen, hsend⟩
      have hpos : 0 < am.buddies.countP (fun b => b.enabled && send b.phone_number) :=
        List.countP_pos_iff.mpr ⟨b, hmem, by simp [hen, hsend]⟩
      simp [snitch, he, hb, hr, hpos]
    · intro hall
      have hzero : am.buddies.countP (fun b => b.enabled && send b.phone_number) = 0 :=
        List.countP_eq_zero.mpr (by
          intro b hmem
          simp only [Bool.and_eq_true, not_and]
          intro hen
          simp [hall b hmem hen])
      simp [snitch, he, hb, hr, hzero]

/-- Concrete instance of claim C4: with snitch mode on, a roster of one
enabled buddy whose delivery succeeds and one disabled buddy, `snitch`
advances the cooldown and returns true; and with a delivery oracle that
always fails, the state is unchanged and false is returned. -/
theorem snitch_spec_witness :
    snitch ⟨[⟨"Ann", "15550001", true⟩, ⟨"Bo", "15550002", false⟩], true, none, 3600⟩ 5
        (fun p => p == "15550001")
      = (⟨[⟨"Ann", "15550001", true⟩, ⟨"Bo", "15550002", false⟩], true, some 5, 3600⟩, true) ∧
    snitch ⟨[⟨"Ann", "15550001", true⟩, ⟨"Bo", "15550002", false⟩], true, none, 3600⟩ 5
        (fun _ => false)
      = (⟨[⟨"Ann", "15550001", true⟩, ⟨"Bo", "15550002", false⟩], true, none, 3600⟩, false) :=
  ⟨((snitch_spec ⟨[⟨"Ann", "15550001", true⟩, ⟨"Bo", "15550002", false⟩], true, none, 3600⟩ 5
        (fun p => p == "15550001")).2 rfl (by decide) (by decide)).1
      ⟨⟨"Ann", "15550001", true⟩, by decide, rfl, by decide⟩,
    ((snitch_spec ⟨[⟨"Ann", "15550001", true⟩, ⟨"Bo", "15550002", false⟩], true, none, 3600⟩ 5
        (fun _ => false)).2 rfl (by decide) (by decide)).2 (by decide)⟩

/-! ### Claim C9 (buddy roster uniqueness invariant) -/

/-- `toggleFirst` changes no phone number. -/
lemma toggleFirst_map_phone (l : List Buddy) (phone : String) (en : Bool) (bs : List Buddy)
    (h : toggleFirst l phone en = some bs) :
    bs.map Buddy.phone_number = l.map Buddy.phone_number := by
  induction l generalizing bs with
  | nil => simp [toggleFirst] at h
  | cons b rest ih =>
    by_cases hb : b.phone_number == phone
    · simp only [toggleFirst, if_pos hb] at h
      cases h
      simp
    · simp only [toggleFirst, if_neg hb] at h
      cases hr : toggleFirst rest phone en with
      | none => rw [hr] at h; cases h
      | some bs2 =>
        rw [hr] at h
        cases h
        simp [ih bs2 hr]

/-- Claim C9: on a roster with pairwise distinct contacts, `add_buddy`
with a present contact returns false and leaves the roster unchanged,
`add_buddy` with a fresh contact appends exactly one enabled entry and
returns true, and each of add, remove and toggle preserves the
distinctness invariant. -/
theorem buddy_roster_distinct (am : AccountabilityManager) (name phone : String) (en : Bool)
    (hd : rosterDistinct am) :
    ((∃ b ∈ am.buddies, b.phone_number = phone) → add_buddy am name phone = (am, false)) ∧
    ((∀ b ∈ am.buddies, b.phone_number ≠ phone) →
      add_buddy am name phone
        = ({ am with buddies := am.buddies ++ [⟨name, phone, true⟩] }, true)) ∧
    rosterDistinct (add_buddy am name phone).1 ∧
    rosterDistinct (remove_buddy am phone).1 ∧
    rosterDistinct (toggle_buddy am phone en).1 := by
  have hfilter : rosterDistinct { am with
      buddies := am.buddies.filter (fun b => !(b.phone_number == phone)) } := by
    unfold rosterDistinct at hd ⊢
    exact hd.sublist ((List.filter_sublist am.buddies).map Buddy.phone_number)
  refine ⟨?_, ?_, ?_, ?_, ?_⟩
  · rintro ⟨b, hmem, hb⟩
    have : am.buddies.any (fun b => b.phone_number == phone) = true :=
      List.any_eq_true.mpr ⟨b, hmem, by simp [hb]⟩
    simp [add_buddy, this]
  · intro hall
    have : am.buddies.any (fun b => b.phone_number == phone) = false := by
      simp only [List.any_eq_false]
      intro b hmem
      simp [hall b hmem]
    simp [add_buddy, this]
  · by_cases hany : am.buddies.any (fun b => b.phone_number == phone)
    · simpa [add_buddy, hany] using hd
    · have hnotin : phone ∉ am.buddies.map Buddy.phone_number := by
        intro hmem
        obtain ⟨b, hb, hphone⟩ := List.mem_map.mp hmem
        exact hany (List.any_eq_true.mpr ⟨b, hb, by simp [hphone]⟩)
      unfold rosterDistinct at hd ⊢
      simp only [add_buddy, if_neg hany]
      simp only [List.map_append, List.map_cons, List.map_nil]
      rw [List.nodup_append]
      refine ⟨hd, List.nodup_singleton _, ?_⟩
      intro x hx hy
      simp only [List.mem_singleton] at hy
      subst hy
      exact hnotin hx
  · unfold remove_buddy
    by_cases hlen : (am.buddies.filter (fun b => !(b.phone_number == phone))).length
        < am.buddies.length
    · simpa [hlen] using hfilter
    · simpa [hlen] using hd
  · unfold toggle_buddy
    cases ht : toggleFirst am.buddies phone en with
    | none => simpa using hd
    | some bs =>
      unfold rosterDistinct at hd ⊢
      simpa [toggleFirst_map_phone am.buddies phone en bs ht] using hd

/-- Concrete instance of claim C9: adding a duplicate contact is
refused, adding a fresh contact appends it, and the resulting rosters
keep distinct contacts. -/
theorem buddy_roster_distinct_witness :
    (add_buddy ⟨[⟨"Ann", "111", true⟩], false, none, 3600⟩ "Bo" "111"
      = (⟨[⟨"Ann", "111", true⟩], false, none, 3600⟩, false)) ∧
    (add_buddy ⟨[⟨"Ann", "111", true⟩], false, none, 3600⟩ "Bo" "222"
      = (⟨[⟨"Ann", "111", true⟩, ⟨"Bo", "222", true⟩], false, none, 3600⟩, true)) ∧
    rosterDistinct (remove_buddy ⟨[⟨"Ann", "111", true⟩], false, none, 3600⟩ "111").1 :=
  ⟨(buddy_roster_distinct ⟨[⟨"Ann", "111", true⟩], false, none, 3600⟩ "Bo" "111" true
      (by simp [rosterDistinct])).1 ⟨⟨"Ann", "111", true⟩, by decide, rfl⟩,
    (buddy_roster_distinct ⟨[⟨"Ann", "111", true⟩], false, none, 3600⟩ "Bo" "222" true
      (by simp [rosterDistinct])).2.1 (by decide),
    (buddy_roster_distinct ⟨[⟨"Ann", "111", true⟩], false, none, 3600⟩ "x" "111" true
      (by simp [rosterDistinct])).2.2.2.1⟩

/-! ### Claim C6 (bounded history with FIFO eviction) -/

/-- For a positive capacity, one `add_activity` leaves exactly the last
`max_history` elements of the appended list. -/
lemma add_activity_eq (l : List Activity) (n : ℕ) (a : Activity) (hc : 1 ≤ n) :
    add_activity ⟨l, n⟩ a = ⟨takeLastL (l ++ [a]) n, n⟩ := by
  unfold add_activity pySliceLast takeLastL
  by_cases hlen : n < (l ++ [a]).length
  · simp only [hlen, if_pos]
    rw [if_neg (by omega)]
  · simp only [hlen, if_neg, ite_false]
    have h0 : (l ++ [a]).length - n = 0 := by
      simp only [List.length_append, List.length_cons, List.length_nil] at hlen ⊢
      omega
    rw [h0, List.drop_zero]

/-- Trimming to the last `n` elements, appending, and trimming again is
the same as appending and trimming once. -/
lemma takeLastL_append (x rest : List Activity) (n : ℕ) :
    takeLastL (takeLastL x n ++ rest) n = takeLastL (x ++ rest) n := by
  unfold takeLastL
  rw [show x.drop (x.length - n) ++ rest = (x ++ rest).drop (x.length - n) from
    (List.drop_append_of_le_length (by omega)).symm]
  rw [List.drop_drop]
  congr 1
  simp only [List.length_drop, List.length_append]
  omega

/-- Folding `add_activity` over a non-empty batch of samples retains
exactly the last `max_history` elements of everything appended. -/
lemma foldl_add_activity (samples : List Activity) (l : List Activity) (n : ℕ)
    (hc : 1 ≤ n) (hne : samples ≠ []) :
    samples.foldl add_activity ⟨l, n⟩ = ⟨takeLastL (l ++ samples) n, n⟩ := by
  induction samples generalizing l with
  | nil => exact absurd rfl hne
  | cons a rest ih =>
    rw [List.foldl_cons, add_activity_eq l n a hc]
    cases hr : rest with
    | nil => simp
    | cons b rest2 =>
      rw [← hr, ih (takeLastL (l ++ [a]) n) (by rw [hr]; simp)]
      rw [takeLastL_append, List.append_assoc]
      simp

/-- Claim C6: starting from any history with positive capacity, after
appending more samples than the capacity the history holds exactly the
last `max_history` appended samples in append order, its length equals
the capacity, and a single `add_activity` never leaves the length above
the capacity. -/
theorem history_bounded (h : ActivityHistory) (samples : List Activity)
    (hc : 1 ≤ h.max_history) (hn : h.max_history < samples.length) :
    (samples.foldl add_activity h).activities.length = h.max_history ∧
    (samples.foldl add_activity h).activities
      = samples.drop (samples.length - h.max_history) ∧
    ∀ (h2 : ActivityHistory) (a : Activity), 1 ≤ h2.max_history →
      (add_activity h2 a).activities.length ≤ h2.max_history := by
  obtain ⟨l, n⟩ := h
  simp only at hc hn ⊢
  have hne : samples ≠ [] := by
    intro he
    rw [he] at hn
    simp at hn
  rw [foldl_add_activity samples l n hc hne]
  have hdrop : takeLastL (l ++ samples) n = samples.drop (samples.length - n) := by
    unfold takeLastL
    rw [show (l ++ samples).length - n = l.length + (samples.length - n) by
      simp only [List.length_append]; omega]
    rw [List.drop_append]
  refine ⟨?_, hdrop, ?_⟩
  · rw [hdrop]
    simp only [List.length_drop]
    omega
  · intro h2 a hc2
    obtain ⟨l2, n2⟩ := h2
    rw [add_activity_eq l2 n2 a hc2]
    simp only [takeLastL, List.length_drop]
    omega

/-- Concrete instance of claim C6: capacity 2, three appended samples,
the history retains the last two in order. -/
theorem history_bounded_witness :
    (([⟨1, "productive", true, "a"⟩, ⟨2, "distracting", false, "b"⟩,
        ⟨3, "productive", true, "c"⟩] : List Activity).foldl add_activity
        ⟨[], 2⟩).activities.length = 2 ∧
    (([⟨1, "productive", true, "a"⟩, ⟨2, "distracting", false, "b"⟩,
        ⟨3, "productive", true, "c"⟩] : List Activity).foldl add_activity
        ⟨[], 2⟩).activities
      = [⟨2, "distracting", false, "b"⟩, ⟨3, "productive", true, "c"⟩] := by
  have t := history_bounded ⟨[], 2⟩
    [⟨1, "productive", true, "a"⟩, ⟨2, "distracting", false, "b"⟩,
      ⟨3, "productive", true, "c"⟩] (by decide) (by decide)
  exact ⟨t.1, t.2.1.trans (by decide)⟩

/-! ### Claim C7 (productivity ratio, neutral 0.5 sentinel) -/

/-- Claim C7: the ratio is exactly one half on an empty history and on a
history with no sample strictly inside the window, and otherwise it is
the number of productive in-window samples divided by the number of
in-window samples. -/
theorem productivity_ratio_spec (h : ActivityHistory) (now win : ℤ) :
    (h.activities = [] → get_productivity_ratioQ h now win = 1/2) ∧
    ((∀ a ∈ h.activities, a.timestamp ≤ now - win * 3600) →
      get_productivity_ratioQ h now win = 1/2) ∧
    (recentActivities h now win ≠ [] →
      get_productivity_ratioQ h now win
        = (((recentActivities h now win).countP (fun a => a.is_productive) : ℕ) : ℚ)
          / (((recentActivities h now win).length : ℕ) : ℚ)) := by
  refine ⟨?_, ?_, ?_⟩
  · intro he
    simp [get_productivity_ratioQ, he]
  · intro hall
    have hrec : recentActivities h now win = [] := by
      unfold recentActivities
      rw [List.filter_eq_nil_iff]
      intro a ha
      simpa using not_lt.mpr (hall a ha)
    by_cases he : h.activities.isEmpty
    · simp [get_productivity_ratioQ, he]
    · simp [get_productivity_ratioQ, he, hrec]
  · intro hne
    have he : h.activities.isEmpty = false := by
      rcases hl : h.activities with _ | ⟨a, rest⟩
      · exact absurd (by simp [recentActivities, hl]) hne
      · simp [hl]
    have hrec : (recentActivities h now win).isEmpty = false := by
      rcases hl : recentActivities h now win with _ | ⟨a, rest⟩
      · exact absurd hl hne
      · simp [hl]
    simp [get_productivity_ratioQ, he, hrec]

/-- Concrete instance of claim C7: four in-window samples, three of them
productive, ratio exactly 0.75. -/
theorem productivity_ratio_witness :
    get_productivity_ratioQ
        ⟨[⟨99000, "productive", true, "a"⟩, ⟨99100, "productive", true, "b"⟩,
          ⟨99200, "distracting", false, "c"⟩, ⟨99300, "productive", true, "d"⟩], 100⟩
        100000 24 = 3/4 := by
  have t := (productivity_ratio_spec
    ⟨[⟨99000, "productive", true, "a"⟩, ⟨99100, "productive", true, "b"⟩,
      ⟨99200, "distracting", false, "c"⟩, ⟨99300, "productive", true, "d"⟩], 100⟩
    100000 24).2.2 (by decide)
  rw [t]
  rw [show (recentActivities
      ⟨[⟨99000, "productive", true, "a"⟩, ⟨99100, "productive", true, "b"⟩,
        ⟨99200, "distracting", false, "c"⟩, ⟨99300, "productive", true, "d"⟩], 100⟩
      100000 24).countP (fun a => a.is_productive) = 3 from by decide]
  rw [show (recentActivities
      ⟨[⟨99000, "productive", true, "a"⟩, ⟨99100, "productive", true, "b"⟩,
        ⟨99200, "distracting", false, "c"⟩, ⟨99300, "productive", true, "d"⟩], 100⟩
      100000 24).length = 4 from by decide]
  norm_num

/-! ### Claim C10 (productive means exactly the label productive) -/

/-- Claim C10: the loop treats a sample as productive exactly when its
label is the string productive; every other label (error, unknown,
anything else) is recorded with a false productivity flag, the recorded
sample then counts in the in-window denominator of the productivity
ratio without counting as productive, and a non-productive sample
passes the condition guarding the distracted notification attempt,
which fires exactly when the notification interval has elapsed. -/
theorem monitoring_productive_iff (st : CoreState) (now : ℤ) (analysis : AnalysisResult)
    (interval : ℤ) (gen : String) (send : String → Bool) :
    ((recordedActivity now analysis).is_productive = true ↔
      analysis.activity_type = "productive") ∧
    (monitoring_iteration st now analysis interval gen send).state.activity_history
      = add_activity st.activity_history (recordedActivity now analysis) ∧
    (analysis.activity_type ≠ "productive" →
      (recordedActivity now analysis).is_productive = false ∧
      (monitoring_iteration st now analysis interval gen send).attempted_category
        = (if interval ≤ now - st.last_notification_time then some "distracted" else none)) ∧
    ((recordedActivity now analysis).is_productive = false →
      ∀ (l : List Activity) (cap : ℕ) (now2 win : ℤ),
        now2 - win * 3600 < now →
        (recentActivities ⟨l ++ [recordedActivity now analysis], cap⟩ now2 win).length
          = (recentActivities ⟨l, cap⟩ now2 win).length + 1 ∧
        (recentActivities ⟨l ++ [recordedActivity now analysis], cap⟩ now2 win).countP
            (fun a => a.is_productive)
          = (recentActivities ⟨l, cap⟩ now2 win).countP (fun a => a.is_productive)) := by
  refine ⟨by simp [recordedActivity], ?_, ?_, ?_⟩
  · unfold monitoring_iteration
    dsimp only
    split
    · split <;> rfl
    · rfl
  · intro hne
    have hflag : (recordedActivity now analysis).is_productive = false := by
      simp [recordedActivity, hne]
    refine ⟨hflag, ?_⟩
    unfold monitoring_iteration
    have hb : (analysis.activity_type == "productive") = false := by simpa using hne
    by_cases hdue : interval ≤ now - st.last_notification_time
    · rw [if_pos (by simp [hb, hdue])]
      rw [if_pos hdue]
      dsimp only
      split <;> rfl
    · rw [if_neg (by simp [hb, hdue])]
      rw [if_neg hdue]
  · intro hflag l cap now2 win hin
    unfold recentActivities
    simp only [List.filter_append]
    rw [show List.filter (fun a => decide (now2 - win * 3600 < a.timestamp))
        [recordedActivity now analysis] = [recordedActivity now analysis] from by
      simp [recordedActivity, hin]]
    constructor
    · simp
    · rw [List.countP_append]
      simp [hflag]

/-- Concrete instance of claim C10: a sample labeled error is recorded
as not productive and triggers a distracted notification attempt when
the interval has elapsed. -/
theorem monitoring_productive_iff_witness :
    (recordedActivity 50 ⟨"error", "error analyzing screen", 0, "x"⟩).is_productive = false ∧
    (monitoring_iteration ⟨⟨[], 100⟩, initialNotificationManager,
        ⟨[], false, none, 3600⟩, 0⟩ 50 ⟨"error", "error analyzing screen", 0, "x"⟩ 10 "m"
        (fun _ => false)).attempted_category = some "distracted" := by
  have t := monitoring_productive_iff ⟨⟨[], 100⟩, initialNotificationManager,
    ⟨[], false, none, 3600⟩, 0⟩ 50 ⟨"error", "error analyzing screen", 0, "x"⟩ 10 "m"
    (fun _ => false)
  have h2 := t.2.2.1 (by decide)
  exact ⟨h2.1, by rw [h2.2]; decide⟩

/-! ### Scanning-loop lemmas for the parser claims -/

/-- When the activity branch fires, the activity field becomes the
extracted value. -/
lemma processLine_activity_of_fires (st : ParseState) (raw : String)
    (h : activityFires raw = true) :
    (processLine st raw).activity = extractValue (trimStr raw) := by
  simp only [activityFires, Bool.and_eq_true, Bool.not_eq_true'] at h
  unfold processLine
  dsimp only
  rw [if_neg (by simp [h.1]), if_pos h.2]

/-- When the activity branch does not fire, the activity field is
unchanged. -/
lemma processLine_activity_stable (st : ParseState) (raw : String)
    (h : activityFires raw = false) :
    (processLine st raw).activity = st.activity := by
  unfold processLine
  dsimp only
  by_cases h1 : typeBranch (trimStr raw)
  · rw [if_pos h1]
    split_ifs <;> rfl
  · have h2 : activityBranch (trimStr raw) = false := by
      simp only [activityFires, Bool.and_eq_false_iff, Bool.not_eq_false'] at h
      rcases h with h | h
      · exact absurd h (by simpa using h1)
      · exact h
    rw [if_neg h1, if_neg (by simp [h2])]
    split_ifs <;> rfl

/-- When the reasoning branch fires, the reasoning field becomes the
extracted value. -/
lemma processLine_reasoning_of_fires (st : ParseState) (raw : String)
    (h : reasoningFires raw = true) :
    (processLine st raw).reasoning = extractValue (trimStr raw) := by
  simp only [reasoningFires, Bool.and_eq_true, Bool.not_eq_true'] at h
  unfold processLine
  dsimp only
  rw [if_neg (by simp [h.1.1]), if_neg (by simp [h.1.2]), if_pos h.2]

/-- When the reasoning branch does not fire, the reasoning field is
unchanged. -/
lemma processLine_reasoning_stable (st : ParseState) (raw : String)
    (h : reasoningFires raw = false) :
    (processLine st raw).reasoning = st.reasoning := by
  unfold processLine
  dsimp only
  by_cases h1 : typeBranch (trimStr raw)
  · rw [if_pos h1]
    split_ifs <;> rfl
  · rw [if_neg h1]
    by_cases h2 : activityBranch (trimStr raw)
    · rw [if_pos h2]
    · have h3 : reasoningBranch (trimStr raw) = false := by
        simp only [reasoningFires, Bool.and_eq_false_iff, Bool.not_eq_false'] at h
        rcases h with (h | h) | h
        · exact absurd h (by simpa using h1)
        · exact absurd h (by simpa using h2)
        · exact h
      rw [if_neg h2, if_neg (by simp [h3])]

/-- When the label branch fires, the label becomes productive or
distracting according to the extracted value. -/
lemma processLine_type_of_fires (st : ParseState) (raw : String)
    (h : typeFires raw = true) :
    (processLine st raw).activity_type
      = (if strHasSub (lowerStr (extractValue (trimStr raw))) "productive" then "productive"
         else "distracting") := by
  simp only [typeFires, Bool.and_eq_true, Bool.or_eq_true] at h
  unfold processLine
  dsimp only
  rw [if_pos h.1]
  by_cases hp : strHasSub (lowerStr (extractValue (trimStr raw))) "productive"
  · rw [if_pos hp, if_pos hp]
  · have hd : strHasSub (lowerStr (extractValue (trimStr raw))) "distracting" = true := by
      rcases h.2 with h2 | h2
      · exact absurd h2 (by simpa using hp)
      · exact h2
    rw [if_neg hp, if_neg hp, if_pos hd]

/-- When the label branch does not fire, the label is unchanged. -/
lemma processLine_type_stable (st : ParseState) (raw : String)
    (h : typeFires raw = false) :
    (processLine st raw).activity_type = st.activity_type := by
  unfold processLine
  dsimp only
  by_cases h1 : typeBranch (trimStr raw)
  · have h2 : strHasSub (lowerStr (extractValue (trimStr raw))) "productive" = false ∧
        strHasSub (lowerStr (extractValue (trimStr raw))) "distracting" = false := by
      simp only [typeFires, Bool.and_eq_false_iff, Bool.or_eq_false_iff] at h
      rcases h with h | h
      · exact absurd h (by simpa using h1)
      · exact h
    rw [if_pos h1, if_neg (by simp [h2.1]), if_neg (by simp [h2.2])]
  · rw [if_neg h1]
    split_ifs <;> rfl

/-- Folding over lines on which the activity branch never fires leaves
the activity field unchanged. -/
lemma foldl_activity_stable (L : List String) (st : ParseState)
    (h : ∀ l ∈ L, activityFires l = false) :
    (L.foldl processLine st).activity = st.activity := by
  induction L generalizing st with
  | nil => rfl
  | cons a rest ih =>
    rw [List.foldl_cons, ih _ (fun l hl => h l (List.mem_cons_of_mem a hl))]
    exact processLine_activity_stable st a (h a (List.mem_cons_self a rest))

/-- Folding over lines on which the reasoning branch never fires leaves
the reasoning field unchanged. -/
lemma foldl_reasoning_stable (L : List String) (st : ParseState)
    (h : ∀ l ∈ L, reasoningFires l = false) :
    (L.foldl processLine st).reasoning = st.reasoning := by
  induction L generalizing st with
  | nil => rfl
  | cons a rest ih =>
    rw [List.foldl_cons, ih _ (fun l hl => h l (List.mem_cons_of_mem a hl))]
    exact processLine_reasoning_stable st a (h a (List.mem_cons_self a rest))

/-- Folding over lines on which the label branch never fires leaves the
label unchanged. -/
lemma foldl_type_stable (L : List String) (st : ParseState)
    (h : ∀ l ∈ L, typeFires l = false) :
    (L.foldl processLine st).activity_type = st.activity_type := by
  induction L generalizing st with
  | nil => rfl
  | cons a rest ih =>
    rw [List.foldl_cons, ih _ (fun l hl => h l (List.mem_cons_of_mem a hl))]
    exact processLine_type_stable st a (h a (List.mem_cons_self a rest))

/-! ### Claim C2 (error sample on service failure) -/

/-- Claim C2 counterexample: when the request raises a transport error,
`analyze_screenshot` does not return the error sample the claim
describes.  The swallowed-error string parses to the label unknown with
the default description and the fixed 0.8 confidence, not to label
error, description error analyzing screen and confidence 0. -/
theorem analyze_transport_error_counterexample :
    (analyze_screenshot true (.transportError "connection refused")).activity_type
        = "unknown" ∧
    (analyze_screenshot true (.transportError "connection refused")).activity_type
        ≠ "error" ∧
    (analyze_screenshot true (.transportError "connection refused")).activity
        ≠ "error analyzing screen" ∧
    (analyze_screenshot true (.transportError "connection refused")).confidence = 4/5 := by
  refine ⟨by decide, by decide, by decide, rfl⟩

/-- Claim C2 (amended): a transport or HTTP failure of the external
service never raises and never produces the error sample; the interface
converts it into a fixed fallback string, which the parse turns into a
Sample with label unknown, the default description, confidence 0.8 and
the fallback text as reasoning; an unavailable service yields label
unknown with confidence 0. -/
theorem analyze_error_fallback (e : String) :
    analyze_screenshot true (.transportError e)
      = ⟨"unknown", "unspecified activity", 4/5, "Failed to communicate with Ollama"⟩ ∧
    analyze_screenshot true (.httpError e)
      = ⟨"unknown", "unspecified activity", 4/5, "Error generating analysis"⟩ ∧
    analyze_screenshot false (.transportError e)
      = ⟨"unknown", "Ollama not available", 0, "Please install Ollama to use this feature."⟩ ∧
    analyze_screenshot false (.httpError e)
      = ⟨"unknown", "Ollama not available", 0, "Please install Ollama to use this feature."⟩ := by
  refine ⟨rfl, rfl, rfl, rfl⟩

/-! ### Claim C3 (earliest labeled line wins) -/

/-- Claim C3 counterexample: with two activity lines, the parse returns
the value of the second line, not of the earliest one as the claim
states. -/
theorem parse_first_line_counterexample :
    (parseAnalysis "ACTIVITY: first\nACTIVITY: second").activity = "second" ∧
    (parseAnalysis "ACTIVITY: first\nACTIVITY: second").activity ≠ "first" := by
  refine ⟨by decide, by decide⟩

/-- Claim C3 (amended): the scan overwrites on every matching line, so
for each field the LAST matching line wins: when the line list splits as
a left part, a matching line, and a right part with no line matching the
same field, the parsed field carries the value of that matching line
(for the description and reasoning fields, provided the value survives
the fallback phase, that is, it is neither empty nor the unspecified
default; the label is overwritten only by matching lines whose value
mentions productive or distracting). -/
theorem parse_last_line_wins (response : String) :
    (∀ L1 line L2, splitStr '\n' response = L1 ++ line :: L2 →
      activityFires line = true → (∀ l ∈ L2, activityFires l = false) →
      extractValue (trimStr line) ≠ "" →
      extractValue (trimStr line) ≠ "unspecified activity" →
      (parseAnalysis response).activity = extractValue (trimStr line)) ∧
    (∀ L1 line L2, splitStr '\n' response = L1 ++ line :: L2 →
      reasoningFires line = true → (∀ l ∈ L2, reasoningFires l = false) →
      extractValue (trimStr line) ≠ "" →
      (parseAnalysis response).reasoning = extractValue (trimStr line)) ∧
    (∀ L1 line L2, splitStr '\n' response = L1 ++ line :: L2 →
      typeFires line = true → (∀ l ∈ L2, typeFires l = false) →
      (parseAnalysis response).activity_type
        = (if strHasSub (lowerStr (extractValue (trimStr line))) "productive"
           then "productive" else "distracting")) := by
  refine ⟨?_, ?_, ?_⟩
  · intro L1 line L2 hsplit hfire hstable hne hnu
    have hact : ((splitStr '\n' response).foldl processLine
        ⟨"unknown", "unspecified activity", ""⟩).activity = extractValue (trimStr line) := by
      rw [hsplit, List.foldl_append, List.foldl_cons, foldl_activity_stable L2 _ hstable,
        processLine_activity_of_fires _ line hfire]
    unfold parseAnalysis
    dsimp only
    rw [hact, if_neg (by simp [hne, hnu])]
  · intro L1 line L2 hsplit hfire hstable hne
    have hreas : ((splitStr '\n' response).foldl processLine
        ⟨"unknown", "unspecified activity", ""⟩).reasoning = extractValue (trimStr line) := by
      rw [hsplit, List.foldl_append, List.foldl_cons, foldl_reasoning_stable L2 _ hstable,
        processLine_reasoning_of_fires _ line hfire]
    unfold parseAnalysis
    dsimp only
    rw [hreas, if_neg (by simp [hne])]
  · intro L1 line L2 hsplit hfire hstable
    have htype : ((splitStr '\n' response).foldl processLine
        ⟨"unknown", "unspecified activity", ""⟩).activity_type
          = (if strHasSub (lowerStr (extractValue (trimStr line))) "productive"
             then "productive" else "distracting") := by
      rw [hsplit, List.foldl_append, List.foldl_cons, foldl_type_stable L2 _ hstable,
        processLine_type_of_fires _ line hfire]
    unfold parseAnalysis
    dsimp only
    rw [htype]
    by_cases hp : strHasSub (lowerStr (extractValue (trimStr line))) "productive"
    · rw [if_pos hp]
      exact if_neg (by decide)
    · rw [if_neg hp]
      exact if_neg (by decide)

/-- Concrete instance of the amended claim C3: with duplicated activity
and reasoning lines and one labeled type line, the later activity and
reasoning lines win and the label comes from the type line. -/
theorem parse_last_line_wins_witness :
    (parseAnalysis "ACTIVITY TYPE: productive\nACTIVITY: first\nACTIVITY: second\nREASONING: a\nREASONING: b").activity
        = "second" ∧
    (parseAnalysis "ACTIVITY TYPE: productive\nACTIVITY: first\nACTIVITY: second\nREASONING: a\nREASONING: b").reasoning
        = "b" ∧
    (parseAnalysis "ACTIVITY TYPE: productive\nACTIVITY: first\nACTIVITY: second\nREASONING: a\nREASONING: b").activity_type
        = "productive" := by
  have t := parse_last_line_wins
    "ACTIVITY TYPE: productive\nACTIVITY: first\nACTIVITY: second\nREASONING: a\nREASONING: b"
  refine ⟨?_, ?_, ?_⟩
  · have h := t.1 ["ACTIVITY TYPE: productive", "ACTIVITY: first"] "ACTIVITY: second"
      ["REASONING: a", "REASONING: b"] (by decide) (by decide) (by decide) (by decide)
      (by decide)
    exact h.trans (by decide)
  · have h := t.2.1 ["ACTIVITY TYPE: productive", "ACTIVITY: first", "ACTIVITY: second",
      "REASONING: a"] "REASONING: b" [] (by decide) (by decide) (by decide) (by decide)
    exact h.trans (by decide)
  · have h := t.2.2 [] "ACTIVITY TYPE: productive"
      ["ACTIVITY: first", "ACTIVITY: second", "REASONING: a", "REASONING: b"] (by decide)
      (by decide) (by decide)
    exact h.trans (by decide)

/-! ### Claim C8 (time-of-day pattern report) -/

/-- The extracted local hour always lies below 24. -/
lemma hourOf_lt_24 (t : ℤ) : hourOf t < 24 := by
  unfold hourOf
  have h1 : 0 ≤ t / 3600 % 24 := Int.emod_nonneg _ (by norm_num)
  have h2 : t / 3600 % 24 < 24 := Int.emod_lt_of_pos _ (by norm_num)
  omega

/-- The source bucket assignment agrees with the hour sets of the
claim on every hour below 24. -/
lemma periodOf_cases (hr : ℕ) (hlt : hr < 24) :
    (periodOf hr = Period.morning ↔ inMorning hr) ∧
    (periodOf hr = Period.afternoon ↔ inAfternoon hr) ∧
    (periodOf hr = Period.evening ↔ inEvening hr) := by
  interval_cases hr <;> decide

/-- The bucketing loop tallies exactly the per-period productive and
distracting counts. -/
lemma foldl_tally_counts (l : List Activity) (t0 : TimeOfDay) :
    l.foldl tally t0 = ⟨
      ⟨t0.morning.productive + l.countP (fun a => a.is_productive
          && decide (periodOf (hourOf a.timestamp) = Period.morning)),
        t0.morning.distracting + l.countP (fun a => !a.is_productive
          && decide (periodOf (hourOf a.timestamp) = Period.morning))⟩,
      ⟨t0.afternoon.productive + l.countP (fun a => a.is_productive
          && decide (periodOf (hourOf a.timestamp) = Period.afternoon)),
        t0.afternoon.distracting + l.countP (fun a => !a.is_productive
          && decide (periodOf (hourOf a.timestamp) = Period.afternoon))⟩,
      ⟨t0.evening.productive + l.countP (fun a => a.is_productive
          && decide (periodOf (hourOf a.timestamp) = Period.evening)),
        t0.evening.distracting + l.countP (fun a => !a.is_productive
          && decide (periodOf (hourOf a.timestamp) = Period.evening))⟩⟩ := by
  induction l generalizing t0 with
  | nil => simp
  | cons a rest ih =>
    rw [List.foldl_cons, ih]
    rcases hp : periodOf (hourOf a.timestamp) <;> rcases hb : a.is_productive <;>
      simp [tally, bump, hp, hb, List.countP_cons] <;> omega

/-- Every period key is at most the key of the first maximum. -/
lemma pyMax3_ge (f : Period → ℚ) (p : Period) : f p ≤ f (pyMax3 f) := by
  unfold pyMax3
  simp only [List.foldl_cons, List.foldl_nil]
  rcases p <;> split_ifs <;> linarith

/-- A period whose key equals the key of the first maximum comes no
earlier in the iteration order. -/
lemma pyMax3_tie (f : Period → ℚ) (p : Period) (h : f p = f (pyMax3 f)) :
    periodIdx (pyMax3 f) ≤ periodIdx p := by
  unfold pyMax3 at h ⊢
  simp only [List.foldl_cons, List.foldl_nil] at h ⊢
  rcases p <;> split_ifs at h ⊢ <;> simp only [periodIdx] <;> first | omega | linarith

/-- The key of the first minimum is at most every period key. -/
lemma pyMin3_le (f : Period → ℚ) (p : Period) : f (pyMin3 f) ≤ f p := by
  unfold pyMin3
  simp only [List.foldl_cons, List.foldl_nil]
  rcases p <;> split_ifs <;> linarith

/-- A period whose key equals the key of the first minimum comes no
earlier in the iteration order. -/
lemma pyMin3_tie (f : Period → ℚ) (p : Period) (h : f p = f (pyMin3 f)) :
    periodIdx (pyMin3 f) ≤ periodIdx p := by
  unfold pyMin3 at h ⊢
  simp only [List.foldl_cons, List.foldl_nil] at h ⊢
  rcases p <;> split_ifs at h ⊢ <;> simp only [periodIdx] <;> first | omega | linarith

/-- Claim C8: on every non-empty history, `identify_patterns` returns a
report satisfying the full bucket, ratio and tie-breaking
specification. -/
theorem identify_patterns_spec (h : ActivityHistory) (hne : h.activities ≠ []) :
    ∃ report, identify_patterns h = some report ∧ patternsSpec h report := by
  have hie : h.activities.isEmpty = false := by
    rcases hl : h.activities with _ | ⟨a, rest⟩
    · exact absurd hl hne
    · simp [hl]
  refine ⟨⟨((h.activities.countP (fun a => a.is_productive) : ℕ) : ℚ)
      / ((h.activities.length : ℕ) : ℚ),
    pyMax3 (fun p => periodRatioQ (getCounts (timeOfDayCounts h) p)),
    pyMin3 (fun p => periodRatioQ (getCounts (timeOfDayCounts h) p)),
    timeOfDayCounts h⟩, ?_, ?_⟩
  · unfold identify_patterns
    rw [if_neg (by simp [hie])]
  · have htc : ∀ (p : Period) (hset : ℕ → Prop) [DecidablePred hset],
        (∀ hr, hr < 24 → (periodOf hr = p ↔ hset hr)) →
        (h.activities.countP (fun a => a.is_productive
            && decide (periodOf (hourOf a.timestamp) = p))
          = h.activities.countP (fun a => a.is_productive
            && decide (hset (hourOf a.timestamp)))) ∧
        (h.activities.countP (fun a => !a.is_productive
            && decide (periodOf (hourOf a.timestamp) = p))
          = h.activities.countP (fun a => !a.is_productive
            && decide (hset (hourOf a.timestamp)))) := by
      intro p hset _ hiff
      constructor <;>
      · refine List.countP_congr ?_
        intro a _
        rw [decide_eq_decide.mpr (hiff _ (hourOf_lt_24 _))]
    have hm := htc Period.morning inMorning
      (fun hr hlt => (periodOf_cases hr hlt).1)
    have ha := htc Period.afternoon inAfternoon
      (fun hr hlt => (periodOf_cases hr hlt).2.1)
    have he := htc Period.evening inEvening
      (fun hr hlt => (periodOf_cases hr hlt).2.2)
    have htod : timeOfDayCounts h = ⟨
        ⟨h.activities.countP (fun a => a.is_productive
            && decide (periodOf (hourOf a.timestamp) = Period.morning)),
          h.activities.countP (fun a => !a.is_productive
            && decide (periodOf (hourOf a.timestamp) = Period.morning))⟩,
        ⟨h.activities.countP (fun a => a.is_productive
            && decide (periodOf (hourOf a.timestamp) = Period.afternoon)),
          h.activities.countP (fun a => !a.is_productive
            && decide (periodOf (hourOf a.timestamp) = Period.afternoon))⟩,
        ⟨h.activities.countP (fun a => a.is_productive
            && decide (periodOf (hourOf a.timestamp) = Period.evening)),
          h.activities.countP (fun a => !a.is_productive
            && decide (periodOf (hourOf a.timestamp) = Period.evening))⟩⟩ := by
      unfold timeOfDayCounts
      rw [foldl_tally_counts]
      simp
    refine ⟨rfl, ?_, ?_, ?_, ?_, ?_, ?_, ?_, ?_, ?_, ?_, ?_, ?_⟩
    · dsimp only
      rw [htod]
      exact hm.1
    · dsimp only
      rw [htod]
      exact hm.2
    · dsimp only
      rw [htod]
      exact ha.1
    · dsimp only
      rw [htod]
      exact ha.2
    · dsimp only
      rw [htod]
      exact he.1
    · dsimp only
      rw [htod]
      exact he.2
    · intro p hzero
      dsimp only at hzero ⊢
      unfold periodRatioQ
      rw [if_pos hzero]
      have hp0 : (getCounts (timeOfDayCounts h) p).productive = 0 := by omega
      rw [hp0]
      simp
    · intro p hpos
      dsimp only at hpos ⊢
      unfold periodRatioQ
      rw [if_neg (by omega)]
    · intro p
      dsimp only
      exact pyMax3_ge (fun p => periodRatioQ (getCounts (timeOfDayCounts h) p)) p
    · intro p hp
      dsimp only at hp ⊢
      exact pyMax3_tie (fun p => periodRatioQ (getCounts (timeOfDayCounts h) p)) p hp
    · intro p
      dsimp only
      exact pyMin3_le (fun p => periodRatioQ (getCounts (timeOfDayCounts h) p)) p
    · intro p hp
      dsimp only at hp ⊢
      exact pyMin3_tie (fun p => periodRatioQ (getCounts (timeOfDayCounts h) p)) p hp

/-- Concrete instance of claim C8: a history with one productive
morning sample and one distracting afternoon sample satisfies the full
pattern specification. -/
theorem identify_patterns_spec_witness :
    ∃ report, identify_patterns
        ⟨[⟨21600, "productive", true, "a"⟩, ⟨43200, "distracting", false, "b"⟩], 100⟩
        = some report ∧
      patternsSpec
        ⟨[⟨21600, "productive", true, "a"⟩, ⟨43200, "distracting", false, "b"⟩], 100⟩
        report :=
  identify_patterns_spec
    ⟨[⟨21600, "productive", true, "a"⟩, ⟨43200, "distracting", false, "b"⟩], 100⟩
    (by decide)

end Snitch
